import Mathlib

/-!
Verification of `vscode_open` (src/vscode_open/__main__.py) against its
natural-language specification.

The Python module is embedded shallowly: strings are `List Char`, the
outcomes of external processes (the `code --status` subcommand, the psutil
process scan, the CoreGraphics window query) are explicit parameters of the
embedded functions, stdout prints and launched subprocesses are recorded as
an event trace, and an unhandled Python exception is an `Except.error`.
Stderr debug logging (`log_debug`) is not modelled: it carries no decision
logic. Character classes (`\s` of the `re` module, `str.strip`,
`str.splitlines`, `str.lower`) are modelled on their ASCII/low-codepoint
behaviour, which covers every string the program compares against.
-/

namespace VSCodeOpen

/-- Whitespace as recognised by Python's `str.strip()` and the regex class
`\s` (ASCII part): space, tab, newline, carriage return, vertical tab,
form feed. -/
def pyWhite (c : Char) : Bool :=
  c == ' ' || c == '\t' || c == '\n' || c == '\r' || c == '\x0b' || c == '\x0c'

/-- Python `str.strip()`: remove `pyWhite` characters from both ends. -/
def pyStrip (cs : List Char) : List Char :=
  ((cs.dropWhile pyWhite).reverse.dropWhile pyWhite).reverse

/-- Python `str.lower()` (ASCII behaviour, which is all the source compares). -/
def pyLower (cs : List Char) : List Char :=
  cs.map Char.toLower

/-- Line-boundary characters of Python `str.splitlines()`. -/
def isLineBreak (c : Char) : Bool :=
  c == '\n' || c == '\r' || c == '\x0b' || c == '\x0c' ||
  c == '\x1c' || c == '\x1d' || c == '\x1e' || c == '\x85' ||
  c == '\u2028' || c == '\u2029'

/-- Accumulator worker for `pySplitlines`; `acc` holds the current line
reversed. -/
def splitlinesAux : List Char → List Char → List (List Char)
  | acc, [] => if acc.isEmpty then [] else [acc.reverse]
  | acc, '\r' :: '\n' :: rest => acc.reverse :: splitlinesAux [] rest
  | acc, c :: rest =>
    if isLineBreak c then acc.reverse :: splitlinesAux [] rest
    else splitlinesAux (c :: acc) rest

/-- Python `str.splitlines()`: split at line boundaries (`\r\n` counts as a
single boundary), with no trailing empty line for a terminating boundary. -/
def pySplitlines (cs : List Char) : List (List Char) :=
  splitlinesAux [] cs

/-- Python `<=` on strings: lexicographic comparison by code point.  Used to
model the `sorted(...)` calls of `find_reusable_window_from_status`. -/
def strLe : List Char → List Char → Bool
  | [], _ => true
  | _ :: _, [] => false
  | a :: as, b :: bs =>
    if a.val < b.val then true
    else if a.val = b.val then strLe as bs
    else false

/-- Insert a string into an already sorted list of strings. -/
def insertTitle (x : List Char) : List (List Char) → List (List Char)
  | [] => [x]
  | y :: ys => if strLe x y then x :: y :: ys else y :: insertTitle x ys

/-- Python's builtin `sorted` on a list of strings (insertion sort; the
claims only depend on the output's membership, not on stability). -/
def pySorted (l : List (List Char)) : List (List Char) :=
  l.foldr insertTitle []

/-- The reuse classifier: the loop at the end of
`find_reusable_window_from_status` (source lines 99-109).  Walks the
on-screen titles; a `"Welcome"` title is skipped; a title not in the
workspace set makes the answer `true`; otherwise the loop continues and the
answer defaults to `false`. -/
def hasReusable : List (List Char) → List (List Char) → Bool
  | [], _ => false
  | title :: rest, ws =>
    if title = "Welcome".data then hasReusable rest ws
    else if title ∈ ws then hasReusable rest ws
    else true

theorem hasReusable_iff (onscreen ws : List (List Char)) :
    hasReusable onscreen ws = true ↔
      ∃ t, t ∈ onscreen ∧ t ∉ ws ∧ t ≠ "Welcome".data := by
  induction onscreen with
  | nil => simp [hasReusable]
  | cons a rest ih =>
    simp only [hasReusable]
    by_cases ha : a = "Welcome".data
    · rw [if_pos ha, ih]
      constructor
      · rintro ⟨t, ht, hw, hn⟩
        exact ⟨t, List.mem_cons_of_mem _ ht, hw, hn⟩
      · rintro ⟨t, ht, hw, hn⟩
        rcases List.mem_cons.mp ht with h | h
        · exact absurd (h.trans ha) hn
        · exact ⟨t, h, hw, hn⟩
    · rw [if_neg ha]
      by_cases hm : a ∈ ws
      · rw [if_pos hm, ih]
        constructor
        · rintro ⟨t, ht, hw, hn⟩
          exact ⟨t, List.mem_cons_of_mem _ ht, hw, hn⟩
        · rintro ⟨t, ht, hw, hn⟩
          rcases List.mem_cons.mp ht with h | h
          · exact absurd hm (h ▸ hw)
          · exact ⟨t, h, hw, hn⟩
      · rw [if_neg hm]
        constructor
        · intro _
          exact ⟨a, List.mem_cons_self a rest, hm, ha⟩
        · intro _
          rfl

theorem mem_insertTitle (x a : List Char) (l : List (List Char)) :
    a ∈ insertTitle x l ↔ a = x ∨ a ∈ l := by
  induction l with
  | nil => simp [insertTitle]
  | cons y ys ih =>
    simp only [insertTitle]
    split
    · simp [List.mem_cons]
    · simp only [List.mem_cons, ih]
      tauto

theorem mem_pySorted (a : List Char) (l : List (List Char)) :
    a ∈ pySorted l ↔ a ∈ l := by
  induction l with
  | nil => simp [pySorted]
  | cons x xs ih =>
    simp only [pySorted, List.foldr_cons] at *
    rw [mem_insertTitle, ih, List.mem_cons]

/-- C1: the reuse classifier returns true iff some on-screen title is
outside the workspace set and is not the literal `"Welcome"`; in
particular it is true on `{"A","Welcome"}` versus `{}`, false on
`{"Welcome"}` versus `{}`, and false on `{"A"}` versus `{"A"}`. -/
theorem c1_reuse_classifier :
    (∀ onscreen ws : List (List Char),
      hasReusable onscreen ws = true ↔
        ∃ t, t ∈ onscreen ∧ t ∉ ws ∧ t ≠ "Welcome".data) ∧
    hasReusable ["A".data, "Welcome".data] [] = true ∧
    hasReusable ["Welcome".data] [] = false ∧
    hasReusable ["A".data] ["A".data] = false :=
  ⟨hasReusable_iff, by decide, by decide, by decide⟩

/-- C9: the reuse classifier is a pure function of its two inputs, so
evaluating it twice on the same pair of title sets yields the same
boolean. -/
theorem c9_classifier_deterministic :
    ∀ onscreen ws : List (List Char),
      hasReusable onscreen ws = hasReusable onscreen ws :=
  fun _ _ => rfl

/-- The section marker the status loop looks for (`"Workspace Stats:" in
line`, source line 80). -/
def markerStr : List Char := "Workspace Stats:".data

/-- Python substring containment `pat in s`, over character lists. -/
def containsSub (pat : List Char) : List Char → Bool
  | [] => pat.isEmpty
  | c :: rest => List.isPrefixOf pat (c :: rest) || containsSub pat rest

/-- Python `"Workspace Stats:" in line` (substring containment). -/
def hasMarker (line : List Char) : Bool :=
  containsSub markerStr line

/-- Split a string at its last `)`: `some` of the part before the last `)`
when one exists, `none` otherwise.  This is how the greedy `(.*)\)` tail of
the regex resolves. -/
def splitAtLastClose (cs : List Char) : Option (List Char) :=
  let r := cs.reverse.dropWhile (fun c => c != ')')
  if r.isEmpty then none else some (r.drop 1).reverse

/-- Attempt to match the regex `\|\s+Window \((.*)\)` with the `\|` consumed
just before `cs`: a nonempty whitespace run, the literal `Window (`, and a
greedy capture ending at the last `)`.  (`\s+` is greedy but `W` is not
whitespace, so only the maximal whitespace run can be followed by the
literal.) -/
def matchWindowAt (cs : List Char) : Option (List Char) :=
  let run := cs.takeWhile pyWhite
  let rest := cs.drop run.length
  if run.isEmpty then none
  else if rest.take 8 = "Window (".data then splitAtLastClose (rest.drop 8)
  else none

/-- Python `re.search` of the compiled pattern
`\|\s+Window \((.*)\)` (source line 77): leftmost match wins, so the
candidate start positions are the `|` characters in order; returns the
capture group. -/
def searchWindow : List Char → Option (List Char)
  | [] => none
  | c :: cs =>
    if c == '|' then
      match matchWindowAt cs with
      | some t => some t
      | none => searchWindow cs
    else searchWindow cs

/-- The line loop of `find_reusable_window_from_status` (source lines
79-87): a line containing the marker switches the flag on and is consumed
(`continue`); once the flag is on, every other line is searched for the
window pattern and the trimmed capture is collected. -/
def scanLines : Bool → List (List Char) → List (List Char)
  | _, [] => []
  | inSection, line :: rest =>
    if hasMarker line then scanLines true rest
    else if inSection then
      match searchWindow line with
      | some t => pyStrip t :: scanLines inSection rest
      | none => scanLines inSection rest
    else scanLines inSection rest

/-- The status parser (spec name `find_workspace_titles`): the workspace
titles collected from the raw `code --status` output, i.e. the line loop of
`find_reusable_window_from_status` run over `status_output.splitlines()`
starting outside the workspace section. -/
def find_workspace_titles (statusOutput : List Char) : List (List Char) :=
  scanLines false (pySplitlines statusOutput)

/-- What the loop body does to a single line once the section flag is on:
marker lines are consumed by the flag branch, other lines contribute their
trimmed capture when the pattern matches. -/
def captureLine (line : List Char) : Option (List Char) :=
  if hasMarker line then none else (searchWindow line).map pyStrip

theorem scanLines_true_eq (lines : List (List Char)) :
    scanLines true lines = lines.filterMap captureLine := by
  induction lines with
  | nil => rfl
  | cons line rest ih =>
    cases h : hasMarker line with
    | true =>
      simp only [scanLines, captureLine, h, if_true, List.filterMap_cons]
      exact ih
    | false =>
      simp only [scanLines, captureLine, h, List.filterMap_cons]
      cases hs : searchWindow line with
      | none => simpa [hs] using ih
      | some t => simpa [hs] using ih

/-- The lines remaining strictly after the first marker line (empty when no
line contains the marker). -/
def afterMarker : List (List Char) → List (List Char)
  | [] => []
  | line :: rest => if hasMarker line then rest else afterMarker rest

theorem scanLines_false_eq (lines : List (List Char)) :
    scanLines false lines = (afterMarker lines).filterMap captureLine := by
  induction lines with
  | nil => rfl
  | cons line rest ih =>
    cases h : hasMarker line with
    | true =>
      simp only [scanLines, afterMarker, h, if_true]
      exact scanLines_true_eq rest
    | false =>
      simpa [scanLines, afterMarker, h] using ih

theorem mem_afterMarker (x : List Char) (lines : List (List Char)) :
    x ∈ afterMarker lines ↔
      ∃ l₁ m l₂ l₃, lines = l₁ ++ m :: (l₂ ++ x :: l₃) ∧ hasMarker m = true := by
  constructor
  · induction lines with
    | nil => intro hx; simp [afterMarker] at hx
    | cons line rest ih =>
      intro hx
      cases h : hasMarker line with
      | true =>
        rw [afterMarker, if_pos h] at hx
        obtain ⟨l₂, l₃, rfl⟩ := List.append_of_mem hx
        exact ⟨[], line, l₂, l₃, rfl, h⟩
      | false =>
        rw [afterMarker, if_neg (by simp [h])] at hx
        obtain ⟨l₁, m, l₂, l₃, hrest, hm⟩ := ih hx
        exact ⟨line :: l₁, m, l₂, l₃, by rw [hrest]; rfl, hm⟩
  · rintro ⟨l₁, m, l₂, l₃, rfl, hm⟩
    induction l₁ with
    | nil =>
      rw [List.nil_append, afterMarker, if_pos hm]
      exact List.mem_append_right _ (List.mem_cons_self _ _)
    | cons a l₁ ih =>
      cases h : hasMarker a with
      | true =>
        rw [List.cons_append, afterMarker, if_pos h]
        exact List.mem_append_right _
          (List.mem_cons_of_mem _ (List.mem_append_right _ (List.mem_cons_self _ _)))
      | false =>
        rw [List.cons_append, afterMarker, if_neg (by simp [h])]
        exact ih

/-- Status output on which the original C2 characterisation fails: the
second line matches the window pattern and sits after a marker line, yet
the code skips it because the line itself also contains the marker. -/
def c2Input : List Char :=
  "Workspace Stats:\n| Window (bar) Workspace Stats:".data

/-- The worked example of the claim: a pattern line before the marker and
one after. -/
def c2Example : List Char :=
  "| Window (foo)\nWorkspace Stats:\n| Window (bar)".data

/-- C2 counterexample: in `c2Input` the line `| Window (bar) Workspace
Stats:` matches the window pattern and occurs after a line containing the
marker, so the claim as stated requires `bar` to be captured; the code
captures nothing, because any line containing the marker is consumed by the
flag branch before the pattern is tried. -/
theorem c2_counterexample :
    (∃ l₁ m l₂ l₃ l, pySplitlines c2Input = l₁ ++ m :: (l₂ ++ l :: l₃) ∧
      hasMarker m = true ∧
      (searchWindow l).map pyStrip = some "bar".data) ∧
    "bar".data ∉ find_workspace_titles c2Input := by
  constructor
  · exact ⟨[], "Workspace Stats:".data, [], [],
      "| Window (bar) Workspace Stats:".data, by decide, by decide, by decide⟩
  · decide

/-- C2 (amended): a title is captured by the status parser iff it is the
trimmed capture of a line that matches the `| Window (title)` pattern,
occurs after some line containing the marker `"Workspace Stats:"`, and does
not itself contain the marker (marker lines are consumed as section
switches and never captured); in particular the claim's own example still
holds: a pattern line before the marker contributes nothing, one after it
is captured. -/
theorem c2_workspace_titles :
    (∀ statusOutput title : List Char,
      title ∈ find_workspace_titles statusOutput ↔
        ∃ l₁ m l₂ l₃ l, pySplitlines statusOutput = l₁ ++ m :: (l₂ ++ l :: l₃) ∧
          hasMarker m = true ∧ hasMarker l = false ∧
          (searchWindow l).map pyStrip = some title) ∧
    "bar".data ∈ find_workspace_titles c2Example ∧
    "foo".data ∉ find_workspace_titles c2Example := by
  refine ⟨?_, by decide, by decide⟩
  intro s title
  rw [find_workspace_titles, scanLines_false_eq, List.mem_filterMap]
  constructor
  · rintro ⟨l, hl, hc⟩
    rw [captureLine] at hc
    cases h : hasMarker l with
    | true => rw [if_pos h] at hc; cases hc
    | false =>
      rw [if_neg (by simp [h])] at hc
      obtain ⟨l₁, m, l₂, l₃, hs, hm⟩ := (mem_afterMarker l _).mp hl
      exact ⟨l₁, m, l₂, l₃, l, hs, hm, h, hc⟩
  · rintro ⟨l₁, m, l₂, l₃, l, hs, hm, hl, hc⟩
    refine ⟨l, (mem_afterMarker l _).mpr ⟨l₁, m, l₂, l₃, hs, hm⟩, ?_⟩
    rw [captureLine, if_neg (by simp [hl])]
    exact hc

/-- Ways the `subprocess.run` call inside `run_command` can go: the
command is missing (`FileNotFoundError`), some other exception is raised,
or the process completes with a return code. -/
inductive CmdOutcome
  | notFound
  | failed (msg : List Char)
  | completed (stdout stderr : List Char) (retcode : Int)
  deriving DecidableEq

/-- The `run_command` wrapper (source lines 24-36): on completion it passes
through stdout, stderr and the return code; `FileNotFoundError` becomes
`("", "Command not found: <cmd>", 127)`; any other exception becomes
`("", str(e), 1)`.  For this program the command is always `code --status`,
so the not-found message names `code`. -/
def run_command : CmdOutcome → List Char × List Char × Int
  | CmdOutcome.notFound => ([], "Command not found: code".data, 127)
  | CmdOutcome.failed msg => ([], msg, 1)
  | CmdOutcome.completed out err code => (out, err, code)

/-- The psutil exceptions caught by `is_vscode_running` (source line 51):
all three are handled identically by skipping the entry. -/
inductive PsutilError
  | noSuchProcess
  | accessDenied
  | zombieProcess
  deriving DecidableEq

/-- One entry yielded by `psutil.process_iter(["cmdline"])`: either
accessing the entry raises one of the caught exceptions (process vanished
mid-scan, access restricted, zombie), or it exposes a command line (a
possibly empty argument list; Python's `None` command line is falsy exactly
like the empty list, so both are the empty list here). -/
inductive ProcEntry
  | raises (e : PsutilError)
  | proc (cmdline : List (List Char))
  deriving DecidableEq

/-- The bundle-path substring the process scanner looks for. -/
def vscodeAppPattern : List Char := "Visual Studio Code.app".data

/-- The process scanner `is_vscode_running` (source lines 39-53): walk the
process list, skip entries that raise, skip falsy command lines, and return
true as soon as some command-line argument contains the bundle path. -/
def is_vscode_running : List ProcEntry → Bool
  | [] => false
  | ProcEntry.raises _ :: rest => is_vscode_running rest
  | ProcEntry.proc cmdline :: rest =>
    if cmdline.isEmpty then is_vscode_running rest
    else if cmdline.any (fun part => containsSub vscodeAppPattern part) then true
    else is_vscode_running rest

/-- An on-screen window as reported by
`Quartz.CGWindowListCopyWindowInfo`: the owner name is always present in
the CoreGraphics dictionary, the window name (`kCGWindowName`) may be
absent. -/
structure CGWindow where
  ownerName : List Char
  name : Option (List Char)
  deriving DecidableEq

/-- Result of `get_vscode_window_names_cg`: the Python function returns the
literal `False` — not a list — when it finds no matching window, and a
list of titles otherwise. -/
inductive CGResult
  | failureSentinel
  | windows (titles : List (List Char))
  deriving DecidableEq

/-- The window enumerator `get_vscode_window_names_cg` (source lines
181-194): filter the on-screen windows to those whose owner name contains
`"code"` case-insensitively; if none match return the failure sentinel
(`False`), otherwise the list of window names, each defaulting to the
empty string when absent and then stripped. -/
def get_vscode_window_names_cg (windowList : List CGWindow) : CGResult :=
  if (windowList.filter
      (fun w => containsSub "code".data (pyLower w.ownerName))).isEmpty then
    CGResult.failureSentinel
  else
    CGResult.windows
      ((windowList.filter
        (fun w => containsSub "code".data (pyLower w.ownerName))).map
        (fun w => pyStrip (w.name.getD [])))

/-- The unhandled Python exceptions the embedded program can raise:
`sorted(False)` inside `find_reusable_window_from_status` when
`get_vscode_window_names_cg` returned its failure sentinel
(`TypeError: 'bool' object is not iterable`), and `FileNotFoundError`
from the bare `subprocess.run(["code", ...], check=False)` launch calls
in `main` when the `code` CLI is missing from the PATH — unlike the
status command, which goes through `run_command`'s handler, the three
launch sites have no `try`/`except` around them. -/
inductive PyError
  | typeError
  | fileNotFoundError
  deriving DecidableEq

/-- Stdout messages printed by `main`, by shape (the exact interpolated
file-path text is not needed by any claim). -/
inductive Msg
  | notRunning
  | foundReusable
  | noReusable
  | openingReuse (files : List (List Char))
  | openingNew (files : List (List Char))
  deriving DecidableEq

/-- Observable effects of one run: running `code --status`, activating the
application, launching `code --new-window ...` or `code --reuse-window
...`, and printing a stdout line. -/
inductive Event
  | runStatus
  | activate
  | launchNew (files : List (List Char))
  | launchReuse (files : List (List Char))
  | printLine (m : Msg)
  deriving DecidableEq

/-- Classifier for the two launch subprocess invocations. -/
def isLaunchEvent : Event → Bool
  | Event.launchNew _ => true
  | Event.launchReuse _ => true
  | _ => false

/-- The whole of `find_reusable_window_from_status` (source lines 56-109):
run `code --status`; a non-zero return code yields `False`; otherwise the
window enumerator's failure sentinel makes the subsequent `sorted(...)`
call raise `TypeError` (the parsing loop that runs before the `sorted`
call has no observable effect, so the embedding branches on the sentinel
directly); otherwise both title lists are sorted, the workspace titles are
parsed out of stdout, and the reuse loop decides the boolean. -/
def find_reusable_window_from_status (statusOutcome : CmdOutcome)
    (windowList : List CGWindow) : List Event × Except PyError Bool :=
  if (run_command statusOutcome).2.2 ≠ 0 then
    ([Event.runStatus], Except.ok false)
  else
    match get_vscode_window_names_cg windowList with
    | CGResult.failureSentinel =>
      ([Event.runStatus], Except.error PyError.typeError)
    | CGResult.windows allTitles =>
      ([Event.runStatus],
        Except.ok (hasReusable (pySorted allTitles)
          (pySorted (find_workspace_titles (run_command statusOutcome).1))))

/-- Outcome of attempting to spawn the `code` launch subprocess at one of
`main`'s three bare `subprocess.run` call sites: either the process spawns
(its exit code is then ignored because of `check=False`), or the binary is
missing and `subprocess.run` raises `FileNotFoundError`, which nothing in
`main` catches.  A run executes at most one launch call, so one field
describes it. -/
inductive SpawnOutcome
  | ok
  | notFound
  deriving DecidableEq

/-- The external world one invocation runs against, after click has
validated the `-f` arguments: the process table, the outcome of `code
--status`, the on-screen window list, the validated file list, the exit
code of whatever `code` launch subprocess would be spawned (the source
passes `check=False` and ignores it; it is a field precisely so that its
irrelevance is provable), and whether that launch subprocess can be
spawned at all. -/
structure Env where
  procs : List ProcEntry
  statusOutcome : CmdOutcome
  cgWindows : List CGWindow
  files : List (List Char)
  launchRetcode : Int
  launchSpawn : SpawnOutcome

/-- The `main` command (source lines 206-244) as a trace of events plus an
outcome: `Except.ok` of the process exit code on the `sys.exit(0)` paths,
`Except.error` when an unhandled exception propagates (the `TypeError`
from the failure sentinel, or the `FileNotFoundError` raised by a launch
call when the `code` CLI is missing — in that case no launch subprocess is
executed, so no launch event is recorded). -/
def main (env : Env) : List Event × Except PyError Nat :=
  if is_vscode_running env.procs = false then
    if env.files.isEmpty then
      ([Event.printLine Msg.notRunning], Except.ok 0)
    else
      match env.launchSpawn with
      | SpawnOutcome.ok => ([Event.launchNew env.files], Except.ok 0)
      | SpawnOutcome.notFound => ([], Except.error PyError.fileNotFoundError)
  else
    match find_reusable_window_from_status env.statusOutcome env.cgWindows with
    | (evs, Except.error e) => (evs, Except.error e)
    | (evs, Except.ok reusable) =>
      if env.files.isEmpty then
        (evs ++ [Event.printLine (if reusable then Msg.foundReusable else Msg.noReusable)],
          Except.ok 0)
      else if reusable then
        match env.launchSpawn with
        | SpawnOutcome.ok =>
          (evs ++ [Event.printLine (Msg.openingReuse env.files), Event.activate,
            Event.launchReuse env.files], Except.ok 0)
        | SpawnOutcome.notFound =>
          (evs ++ [Event.printLine (Msg.openingReuse env.files), Event.activate],
            Except.error PyError.fileNotFoundError)
      else
        match env.launchSpawn with
        | SpawnOutcome.ok =>
          (evs ++ [Event.printLine (Msg.openingNew env.files),
            Event.launchNew env.files], Except.ok 0)
        | SpawnOutcome.notFound =>
          (evs ++ [Event.printLine (Msg.openingNew env.files)],
            Except.error PyError.fileNotFoundError)

theorem find_reusable_events (statusOutcome : CmdOutcome)
    (windowList : List CGWindow) :
    (find_reusable_window_from_status statusOutcome windowList).1 =
      [Event.runStatus] := by
  rw [find_reusable_window_from_status]
  split
  · rfl
  · split <;> rfl

/-- C4: whenever `code --status` exits non-zero — which includes the
return code 127 that `run_command` synthesises when the command is missing
— `find_reusable_window_from_status` returns `False` ("no reusable
window") without raising. -/
theorem c4_status_nonzero (statusOutcome : CmdOutcome)
    (windowList : List CGWindow)
    (h : (run_command statusOutcome).2.2 ≠ 0) :
    (find_reusable_window_from_status statusOutcome windowList).2 =
      Except.ok false := by
  rw [find_reusable_window_from_status, if_pos h]

/-- C4 witness: a missing `code` command yields return code 127, and the
classification step answers `False` instead of raising. -/
theorem c4_witness :
    (run_command CmdOutcome.notFound).2.2 ≠ 0 ∧
    (find_reusable_window_from_status CmdOutcome.notFound []).2 =
      Except.ok false :=
  ⟨by decide, c4_status_nonzero CmdOutcome.notFound [] (by decide)⟩

/-- An environment with an empty process table (VSCode not running), one
file to open, and the `code` CLI present for launching. -/
def envNotRunning : Env :=
  Env.mk [] (CmdOutcome.completed [] [] 0) [] ["/tmp/a.txt".data] 0
    SpawnOutcome.ok

/-- A not-running environment with one file in which the `code` CLI is
missing from the PATH altogether (for `--status` and for launching
alike). -/
def envNotRunningNoCLI : Env :=
  Env.mk [] CmdOutcome.notFound [] ["/tmp/a.txt".data] 0
    SpawnOutcome.notFound

/-- C5 counterexample: with the process scan reporting not running and
files supplied — the claim's premise — but the `code` CLI missing from
the PATH, the bare `subprocess.run(["code", "--new-window", ...])` at
source line 215 raises an unhandled `FileNotFoundError`, so the run does
not exit 0 as the claim states. -/
theorem c5_counterexample :
    is_vscode_running envNotRunningNoCLI.procs = false ∧
    envNotRunningNoCLI.files ≠ [] ∧
    (main envNotRunningNoCLI).2 = Except.error PyError.fileNotFoundError ∧
    (main envNotRunningNoCLI).2 ≠ Except.ok 0 :=
  ⟨rfl, by decide, rfl, fun hcon => Except.noConfusion hcon⟩

/-- C5 (amended): when the process scan reports VSCode not running: with
no files the trace is exactly the "not running" print and the run exits
0; with files supplied the reuse path is never taken and the new-window
launch path is attempted exactly once — when the `code` CLI can be
spawned the trace is exactly one `code --new-window` launch and the run
exits 0, but when the CLI is missing the launch call raises an unhandled
`FileNotFoundError` and the run aborts (executing no launch subprocess at
all). -/
theorem c5_not_running (env : Env)
    (h : is_vscode_running env.procs = false) :
    (env.files = [] →
      (main env).1 = [Event.printLine Msg.notRunning] ∧
      (main env).2 = Except.ok 0) ∧
    (env.files ≠ [] → env.launchSpawn = SpawnOutcome.ok →
      (main env).1 = [Event.launchNew env.files] ∧
      (main env).2 = Except.ok 0) ∧
    (env.files ≠ [] → env.launchSpawn = SpawnOutcome.notFound →
      (main env).1 = [] ∧
      (main env).2 = Except.error PyError.fileNotFoundError) := by
  rw [main, if_pos h]
  cases hf : env.files with
  | nil =>
    exact ⟨fun _ => ⟨rfl, rfl⟩,
      fun hc _ => absurd rfl hc, fun hc _ => absurd rfl hc⟩
  | cons a fs =>
    refine ⟨fun hc => List.noConfusion hc, fun _ hsp => ?_, fun _ hsp => ?_⟩
    · rw [hsp]
      exact ⟨rfl, rfl⟩
    · rw [hsp]
      exact ⟨rfl, rfl⟩

/-- C5 witness: on a concrete not-running environment with one file and a
spawnable CLI, the trace is the single new-window launch and the run
exits 0. -/
theorem c5_witness :
    (main envNotRunning).1 = [Event.launchNew ["/tmp/a.txt".data]] ∧
    (main envNotRunning).2 = Except.ok 0 :=
  ⟨((c5_not_running envNotRunning rfl).2.1 (by decide) rfl).1,
   ((c5_not_running envNotRunning rfl).2.1 (by decide) rfl).2⟩

/-- A process table in which VSCode is running. -/
def runningProcs : List ProcEntry :=
  [ProcEntry.proc
    ["/Applications/Visual Studio Code.app/Contents/MacOS/Electron".data]]

/-- The failing input for C3: VSCode running, `code --status` succeeding,
but zero on-screen windows owned by a `code` process, with files
supplied. -/
def envCrashFiles : Env :=
  Env.mk runningProcs
    (CmdOutcome.completed "Version 1.0\nWorkspace Stats:".data [] 0)
    [] ["/tmp/a.txt".data] 0 SpawnOutcome.ok

/-- The same failing scenario in query-only mode (no files). -/
def envCrashQuery : Env :=
  Env.mk runningProcs
    (CmdOutcome.completed "Version 1.0\nWorkspace Stats:".data [] 0)
    [] [] 0 SpawnOutcome.ok

/-- C3: evaluation at the failing input.  With VSCode running and `code
--status` exiting 0, a window enumeration that matches zero windows makes
`get_vscode_window_names_cg` return its `False` sentinel, and the
subsequent `sorted(all_window_titles)` raises an uncaught `TypeError`, so
the run aborts with an unhandled exception instead of terminating normally
— the code, not the claim, is at fault (the function's own docstring
promises a bool return). -/
theorem c3_sentinel_crash :
    get_vscode_window_names_cg envCrashFiles.cgWindows =
      CGResult.failureSentinel ∧
    (main envCrashFiles).2 = Except.error PyError.typeError := by
  exact ⟨rfl, rfl⟩

/-- C6: in query-only mode no launch subprocess ever appears in the trace
(this part holds on every environment, crash included); but the claim's
"prints and exits 0" part fails on the sentinel-crash input, where the run
aborts with the unhandled `TypeError` — same code bug as C3. -/
theorem c6_query_only :
    (∀ (procs : List ProcEntry) (st : CmdOutcome) (wins : List CGWindow)
      (rc : Int) (sp : SpawnOutcome),
      (main (Env.mk procs st wins [] rc sp)).1.filter isLaunchEvent = []) ∧
    (main envCrashQuery).2 = Except.error PyError.typeError := by
  constructor
  · intro procs st wins rc sp
    cases h : is_vscode_running procs with
    | false =>
      rw [main]
      rw [show (Env.mk procs st wins [] rc sp).procs = procs from rfl, h]
      rfl
    | true =>
      rw [main]
      rw [show (Env.mk procs st wins [] rc sp).procs = procs from rfl, h]
      rw [if_neg (by simp)]
      rcases hfr : find_reusable_window_from_status st wins with ⟨evs, r⟩
      have hevs : evs = [Event.runStatus] := by
        have h1 := find_reusable_events st wins
        rw [hfr] at h1
        exact h1
      subst hevs
      cases r with
      | error e => rfl
      | ok reusable => rfl
  · rfl

/-- C7: every run that reaches one of the terminal states of the state
machine — i.e. whose outcome is a normal `sys.exit` — exits 0, and the
exit code of any launched editor CLI subprocess is irrelevant to the whole
run (the `launchRetcode` field of the environment is never read). -/
theorem c7_terminal_exit_zero :
    (∀ (env : Env) (c : Nat), (main env).2 = Except.ok c → c = 0) ∧
    (∀ (procs : List ProcEntry) (st : CmdOutcome) (wins : List CGWindow)
      (files : List (List Char)) (rc rc' : Int) (sp : SpawnOutcome),
      main (Env.mk procs st wins files rc sp) =
        main (Env.mk procs st wins files rc' sp)) := by
  constructor
  · intro env c hc
    rw [main] at hc
    by_cases h : is_vscode_running env.procs = false
    · rw [if_pos h] at hc
      cases hf : env.files with
      | nil =>
        rw [hf] at hc
        exact (Except.ok.inj hc).symm
      | cons a fs =>
        rw [hf] at hc
        cases hsp : env.launchSpawn with
        | ok =>
          rw [hsp] at hc
          exact (Except.ok.inj hc).symm
        | notFound =>
          rw [hsp] at hc
          exact Except.noConfusion hc
    · rw [if_neg h] at hc
      rcases hfr : find_reusable_window_from_status env.statusOutcome
        env.cgWindows with ⟨evs, r⟩
      rw [hfr] at hc
      cases r with
      | error e => exact Except.noConfusion hc
      | ok reusable =>
        dsimp only at hc
        by_cases h2 : env.files.isEmpty = true
        · rw [if_pos h2] at hc
          exact (Except.ok.inj hc).symm
        · rw [if_neg h2] at hc
          cases reusable with
          | false =>
            rw [if_neg (by simp)] at hc
            cases hsp : env.launchSpawn with
            | ok =>
              rw [hsp] at hc
              exact (Except.ok.inj hc).symm
            | notFound =>
              rw [hsp] at hc
              exact Except.noConfusion hc
          | true =>
            rw [if_pos rfl] at hc
            cases hsp : env.launchSpawn with
            | ok =>
              rw [hsp] at hc
              exact (Except.ok.inj hc).symm
            | notFound =>
              rw [hsp] at hc
              exact Except.noConfusion hc
  · intro procs st wins files rc rc' sp
    rfl

/-- C7 witness: a concrete run that reaches a terminal state does exit
with code 0. -/
theorem c7_witness :
    (main envNotRunning).2 = Except.ok 0 ∧ (0 : Nat) = 0 :=
  ⟨rfl, c7_terminal_exit_zero.1 envNotRunning 0 rfl⟩

/-- C8: the process scanner tolerates entries that raise (vanished,
access-restricted or zombie processes contribute nothing and do not abort
the scan) and returns true exactly when some surviving entry has a
command-line argument containing the bundle-path substring; it is a pure
function, so it has no side effects. -/
theorem c8_process_scan :
    ∀ procs : List ProcEntry,
      is_vscode_running procs = true ↔
        ∃ cl, ProcEntry.proc cl ∈ procs ∧
          ∃ part, part ∈ cl ∧ containsSub vscodeAppPattern part = true := by
  intro procs
  induction procs with
  | nil => simp [is_vscode_running]
  | cons p rest ih =>
    cases p with
    | raises e =>
      rw [show is_vscode_running (ProcEntry.raises e :: rest) =
        is_vscode_running rest from rfl, ih]
      constructor
      · rintro ⟨cl, hmem, hp⟩
        exact ⟨cl, List.mem_cons_of_mem _ hmem, hp⟩
      · rintro ⟨cl, hmem, hp⟩
        rcases List.mem_cons.mp hmem with h | h
        · exact ProcEntry.noConfusion h
        · exact ⟨cl, h, hp⟩
    | proc cl =>
      cases cl with
      | nil =>
        rw [show is_vscode_running (ProcEntry.proc [] :: rest) =
          is_vscode_running rest from rfl, ih]
        constructor
        · rintro ⟨cl', hmem, hp⟩
          exact ⟨cl', List.mem_cons_of_mem _ hmem, hp⟩
        · rintro ⟨cl', hmem, part, hpart, hc⟩
          rcases List.mem_cons.mp hmem with h | h
          · obtain rfl : cl' = [] := (ProcEntry.proc.inj h)
            exact absurd hpart (List.not_mem_nil part)
          · exact ⟨cl', h, part, hpart, hc⟩
      | cons c cs =>
        rw [show is_vscode_running (ProcEntry.proc (c :: cs) :: rest) =
          (if (c :: cs).any (fun part => containsSub vscodeAppPattern part)
            then true else is_vscode_running rest) from rfl]
        by_cases ha :
          (c :: cs).any (fun part => containsSub vscodeAppPattern part) = true
        · rw [if_pos ha]
          obtain ⟨part, hpart, hc⟩ := List.any_eq_true.mp ha
          exact iff_of_true rfl
            ⟨c :: cs, List.mem_cons_self _ _, part, hpart, hc⟩
        · rw [if_neg ha, ih]
          constructor
          · rintro ⟨cl', hmem, hp⟩
            exact ⟨cl', List.mem_cons_of_mem _ hmem, hp⟩
          · rintro ⟨cl', hmem, part, hpart, hc⟩
            rcases List.mem_cons.mp hmem with h | h
            · obtain rfl : cl' = c :: cs := (ProcEntry.proc.inj h)
              exact absurd (List.any_eq_true.mpr ⟨part, hpart, hc⟩) ha
            · exact ⟨cl', h, part, hpart, hc⟩

/-- C10: a matching on-screen window whose `kCGWindowName` is absent or
empty is normalised to the empty-string title by the enumerator, and since
the empty string differs from `"Welcome"`, the reuse loop classifies it as
reusable whenever the empty string is not among the parsed workspace
titles. -/
theorem c10_untitled_window (windowList : List CGWindow) (w : CGWindow)
    (ws : List (List Char))
    (hw : w ∈ windowList)
    (hOwner : containsSub "code".data (pyLower w.ownerName) = true)
    (hName : w.name = none ∨ w.name = some []) :
    ∃ titles, get_vscode_window_names_cg windowList = CGResult.windows titles ∧
      [] ∈ titles ∧
      ([] ∉ ws → hasReusable (pySorted titles) ws = true) := by
  have hmem : w ∈ windowList.filter
      (fun w => containsSub "code".data (pyLower w.ownerName)) :=
    List.mem_filter.mpr ⟨hw, hOwner⟩
  have hne : ¬((windowList.filter
      (fun w => containsSub "code".data (pyLower w.ownerName))).isEmpty = true) := by
    intro he
    rw [List.isEmpty_iff] at he
    rw [he] at hmem
    exact absurd hmem (List.not_mem_nil w)
  rw [get_vscode_window_names_cg, if_neg hne]
  have hblank : pyStrip (w.name.getD []) = [] := by
    rcases hName with h | h <;> rw [h] <;> rfl
  refine ⟨_, rfl, ?_, ?_⟩
  · exact List.mem_map.mpr ⟨w, hmem, hblank⟩
  · intro hws
    rw [hasReusable_iff]
    refine ⟨[], ?_, hws, by decide⟩
    rw [mem_pySorted]
    exact List.mem_map.mpr ⟨w, hmem, hblank⟩

/-- A single on-screen window owned by `Code` with no `kCGWindowName`. -/
def untitledWindowList : List CGWindow :=
  [CGWindow.mk "Code".data none]

/-- C10 witness: the concrete one-window list with an absent name yields
the empty-string title and is classified reusable against an empty
workspace set. -/
theorem c10_witness :
    (CGWindow.mk "Code".data none ∈ untitledWindowList) ∧
    (containsSub "code".data
      (pyLower (CGWindow.mk "Code".data none).ownerName) = true) ∧
    ∃ titles, get_vscode_window_names_cg untitledWindowList =
        CGResult.windows titles ∧
      [] ∈ titles ∧
      ([] ∉ ([] : List (List Char)) → hasReusable (pySorted titles) [] = true) :=
  ⟨List.mem_cons_self _ _, by decide,
   c10_untitled_window untitledWindowList _ []
     (List.mem_cons_self _ _) (by decide) (Or.inl rfl)⟩

end VSCodeOpen
